import Mathlib

/-!
Verification development for the MCP multi-agent orchestration program
(`mcp_client.py`, `consultant_agent.py`, `executor_agent.py`, `orchestrator.py`).

The source is embedded shallowly:

* Decoded JSON documents are modelled by the inductive type `Json`; a decoded
  object is the list of its key/value pairs (keys unique, insertion order).
* The external functions `json.loads` (which may raise) and `str` (Python's
  rendering of a dynamic value inside an f-string) are modelled as explicit
  parameters `loads : String → Option Json` (with `none` standing for a raised
  decode error) and `pystr : Json → String`; no proved property depends on a
  particular choice of either.
* The language-model calls made by the consultant and executor agents are
  external collaborators; each call's outcome is supplied as an oracle of type
  `Except String String` (`Except.error e` models the call raising an exception
  whose rendered message is `e`).
* Python exceptions inside the orchestrator are modelled by `Option`/`Except`
  results of the embedded helper functions; a `try`/`except` block turns into a
  `match` on those results.
-/

/-- Json models a decoded Python JSON document: the result of a successful
`json.loads`. Objects are the dict's key/value pairs in insertion order with
unique keys; numbers are abstracted to integers (no claim observes them). -/
inductive Json where
  | null : Json
  | bool (b : Bool) : Json
  | num (n : Int) : Json
  | str (s : String) : Json
  | arr (items : List Json) : Json
  | obj (entries : List (String × Json)) : Json

/-- jsonGetD models Python `d.get(key, default)` on a decoded JSON object
given as its entry list `kvs`. -/
def jsonGetD (kvs : List (String × Json)) (key : String) (default : Json) : Json :=
  match kvs.find? (fun p => p.1 == key) with
  | some p => p.2
  | none => default

/-- Json.isObj is true exactly on decoded objects (Python dicts). -/
def Json.isObj : Json → Bool
  | Json.obj _ => true
  | _ => false

/-- pyWhitespace models the character class stripped by Python `str.strip()`
(the ASCII whitespace characters; the unicode extras play no role here). -/
def pyWhitespace (c : Char) : Bool :=
  c = ' ' || c = '\t' || c = '\n' || c = '\r' || c = '\x0b' || c = '\x0c'

/-- pyStrip models Python `str.strip()`: leading and trailing whitespace
removed. -/
def pyStrip (s : String) : String :=
  String.mk (((s.data.dropWhile pyWhitespace).reverse.dropWhile pyWhitespace).reverse)

/-- pyStartsWith models Python `str.startswith`. -/
def pyStartsWith (s pre : String) : Bool :=
  pre.data.isPrefixOf s.data

/-- splitNlChars splits a character list at every newline, keeping empty
segments, exactly like Python `str.split` with an explicit separator. -/
def splitNlChars : List Char → List (List Char)
  | [] => [[]]
  | c :: rest =>
    match splitNlChars rest with
    | [] => [[c]]
    | x :: xs => if c = '\n' then [] :: x :: xs else (c :: x) :: xs

/-- pySplitNl models Python `s.split('\n')`. -/
def pySplitNl (s : String) : List String :=
  (splitNlChars s.data).map String.mk

/-- pyIntercalate models Python `sep.join(pieces)`. -/
def pyIntercalate (sep : String) : List String → String
  | [] => ""
  | [x] => x
  | x :: y :: rest => x ++ sep ++ pyIntercalate sep (y :: rest)

namespace ConsultantAgent

/-- TaskPlan mirrors the `TaskPlan` dataclass of `consultant_agent.py`.
The dataclass annotations are not enforced at runtime, so each field holds
whatever decoded value `plan_data.get` returned; the fields are therefore
`Json` values here. -/
structure TaskPlan where
  task_description : Json
  required_tools : Json
  execution_steps : Json
  expected_outcome : Json

/-- collectJsonLines mirrors the line scan of
`ConsultantAgent.extract_execution_plan`: a line whose stripped content starts
with the "```json" marker (re)starts collection and is itself skipped; a line
stripping to exactly "```" while collection is active stops the scan; other
lines are kept when collection is active and skipped otherwise. -/
def collectJsonLines : List String → Bool → List String
  | [], _ => []
  | l :: rest, started =>
    if pyStartsWith (pyStrip l) "```json" then collectJsonLines rest true
    else if pyStrip l = "```" ∧ started = true then []
    else if started then l :: collectJsonLines rest started
    else collectJsonLines rest started

/-- extract_execution_plan embeds `ConsultantAgent.extract_execution_plan`.
`loads` models `json.loads` (`none` = the decode raised). The surrounding
`try`/`except` of the source catches every fault and returns `None`; here every
fault path is an explicit `none`. A successful decode that is not an object
corresponds to `plan_data.get` raising `AttributeError`, which the source also
catches and converts to `None`. -/
def extract_execution_plan (loads : String → Option Json) (response : String) :
    Option TaskPlan :=
  let lines := pySplitNl response
  let json_lines := collectJsonLines lines false
  if json_lines.isEmpty then none
  else
    match loads (pyIntercalate "\n" json_lines) with
    | none => none
    | some (Json.obj kvs) =>
      some { task_description := jsonGetD kvs "task_description" (Json.str "")
             required_tools := jsonGetD kvs "required_tools" (Json.arr [])
             execution_steps := jsonGetD kvs "execution_steps" (Json.arr [])
             expected_outcome := jsonGetD kvs "expected_outcome" (Json.str "") }
    | some _ => none

end ConsultantAgent

namespace MCPClientMod

/-- FieldSchema models one entry of a parameter schema's `properties` dict as
accessed by `MCPToolInput.create_model`: only the `type` and `description` keys
are read, each possibly absent. -/
structure FieldSchema where
  type : Option String
  description : Option String
  deriving DecidableEq, Repr

/-- ParamSchema models the JSON-Schema dict handed to
`MCPToolInput.create_model`: the `required` name list (defaulting to `[]`) and
the `properties` dict in declaration order (defaulting to empty). -/
structure ParamSchema where
  required : List String
  properties : List (String × FieldSchema)
  deriving DecidableEq, Repr

/-- PyType is the Python type object stored for a field by `create_model`
(the codomain of the source's JSON-kind → Python-type dict). -/
inductive PyType where
  | str | int | float | bool | dict | list
  deriving DecidableEq, Repr

/-- FieldDefault is the `default` argument passed to pydantic's `Field`:
the ellipsis sentinel `...` (field required) or Python `None` (field optional,
left unset; distinct from any empty or zero value). -/
inductive FieldDefault where
  | ellipsis | pynone
  deriving DecidableEq, Repr

/-- ModelField is one field of the dynamically created pydantic model:
name, mapped Python type, default sentinel and description. -/
structure ModelField where
  name : String
  pyType : PyType
  default : FieldDefault
  description : String
  deriving DecidableEq, Repr

/-- pyTypeOfKind embeds the source's dict lookup
`{'string': str, 'integer': int, 'number': float, 'boolean': bool,
'object': dict, 'array': list}.get(field_type, str)`: any kind outside the six
keys falls through to `str`. -/
def pyTypeOfKind (k : String) : PyType :=
  if k = "string" then PyType.str
  else if k = "integer" then PyType.int
  else if k = "number" then PyType.float
  else if k = "boolean" then PyType.bool
  else if k = "object" then PyType.dict
  else if k = "array" then PyType.list
  else PyType.str

/-- create_model embeds `MCPToolInput.create_model`: one output field per
`properties` entry, in declaration order; `type` defaults to "string" and
`description` to "" via `dict.get`; the pydantic default is the ellipsis
sentinel exactly when the name occurs in the `required` list, and Python
`None` otherwise. The generated model's name string is irrelevant to every
claim and omitted. -/
def create_model (schema : ParamSchema) : List ModelField :=
  schema.properties.map (fun p =>
    { name := p.1
      pyType := pyTypeOfKind (p.2.type.getD "string")
      default := if p.1 ∈ schema.required then FieldDefault.ellipsis
                 else FieldDefault.pynone
      description := p.2.description.getD "" })

/-- lbrace is the character `\x7b` (opening curly brace). -/
def lbrace : Char := Char.ofNat 123

/-- rbrace is the character `\x7d` (closing curly brace). -/
def rbrace : Char := Char.ofNat 125

/-- CfgArg is one element of a provider configuration's argument list:
either a string (given as its character list) or a non-string JSON scalar,
which `_connect_to_server` passes through untouched. -/
inductive CfgArg where
  | str (s : List Char)
  | other (v : Int)
  deriving DecidableEq, Repr

/-- dollarBraceForm v is the character list of the literal placeholder
`$` `\x7b` v `\x7d`, i.e. the exact shape tested by
`arg.startswith('$\x7b') and arg.endswith('\x7d')`. -/
def dollarBraceForm (v : List Char) : List Char :=
  '$' :: lbrace :: (v ++ [rbrace])

/-- lookupEnv models `os.environ.get`: the environment is an association list
with unique keys. -/
def lookupEnv (env : List (List Char × List Char)) (k : List Char) :
    Option (List Char) :=
  (env.find? (fun p => p.1 == k)).map (fun p => p.2)

/-- expandArg embeds the per-argument body of the expansion loop in
`MCPClient._connect_to_server`: a string argument passing the prefix/suffix
test has its interior `arg[2:-1]` looked up in the environment, falling back
to the whole literal argument; every other argument is kept unchanged. -/
def expandArg (env : List (List Char × List Char)) : CfgArg → CfgArg
  | CfgArg.str s =>
    if ['$', lbrace].isPrefixOf s && [rbrace].isSuffixOf s then
      match lookupEnv env ((s.drop 2).dropLast) with
      | some val => CfgArg.str val
      | none => CfgArg.str s
    else CfgArg.str s
  | CfgArg.other v => CfgArg.other v

/-- expand_args embeds the whole expansion loop of `_connect_to_server`:
the expanded list is the argument list mapped element-wise through
`expandArg`, order preserved. -/
def expand_args (env : List (List Char × List Char)) (args : List CfgArg) :
    List CfgArg :=
  args.map (expandArg env)

/-- MCPTool models one `MCPTool` instance: the fields of its `tool_info`
dict plus the owning server's name. The live session object is identified by
the server it belongs to. -/
structure MCPTool where
  name : String
  description : String
  inputSchema : ParamSchema
  server_name : String
  deriving DecidableEq, Repr

/-- MCPClientModel is the observable state of an `MCPClient`: connected
session names, the per-server tool dict in registration order, the combined
`all_tools` list, and the `AsyncExitStack`'s stack of entered async contexts
(opaque handles, entry order). -/
structure MCPClientModel where
  sessions : List String
  tools : List (String × List MCPTool)
  all_tools : List MCPTool
  exit_stack : List Nat
  deriving DecidableEq, Repr

/-- emptyClient is the state produced by `MCPClient.__init__`. -/
def emptyClient : MCPClientModel :=
  { sessions := [], tools := [], all_tools := [], exit_stack := [] }

/-- register_server embeds one successful `_connect_to_server` call: the stdio
transport and the session are pushed on the exit stack, the session is
recorded, each discovered tool is appended to `all_tools`, and the server's
own tool list is stored under its name. -/
def register_server (st : MCPClientModel) (server : String)
    (server_tools : List MCPTool) : MCPClientModel :=
  { sessions := st.sessions ++ [server]
    tools := st.tools ++ [(server, server_tools)]
    all_tools := st.all_tools ++ server_tools
    exit_stack := st.exit_stack ++ [st.exit_stack.length, st.exit_stack.length + 1] }

/-- get_tools_by_server embeds `MCPClient.get_tools_by_server`, i.e.
`self.tools.get(server_name, [])`; a later assignment to the same key shadows
an earlier one, hence the reversed search. -/
def get_tools_by_server (st : MCPClientModel) (server : String) : List MCPTool :=
  match st.tools.reverse.find? (fun p => p.1 == server) with
  | some p => p.2
  | none => []

/-- close embeds `MCPClient.close`, i.e. `await self.exit_stack.aclose()`:
the async exit stack unwinds its entered contexts in reverse entry order and
is left empty; the returned list is the sequence of released handles. No other
field of the client is touched. -/
def close (st : MCPClientModel) : MCPClientModel × List Nat :=
  ({ st with exit_stack := [] }, st.exit_stack.reverse)

end MCPClientMod

namespace ExecutorAgent

open MCPClientMod

/-- dictInsert is one assignment step of the dict comprehension
`{tool.name: tool for tool in mcp_tools}`: a later binding of the same name
overwrites an earlier one. -/
def dictInsert (m : String → Option MCPTool) (t : MCPTool) :
    String → Option MCPTool :=
  fun n => if n = t.name then some t else m n

/-- tools_map embeds `ExecutorAgent.tools_map` followed by `.get`: the name
to tool dict built left to right over `mcp_tools`, so the last tool bearing a
name wins. -/
def tools_map (mcp_tools : List MCPTool) : String → Option MCPTool :=
  mcp_tools.foldl dictInsert (fun _ => none)

/-- get_tool_info embeds `ExecutorAgent.get_tool_info`: the global
name lookup through `tools_map`, returning the found tool's name, description
and argument schema, or `None`. -/
def get_tool_info (mcp_tools : List MCPTool) (tool_name : String) :
    Option (String × String × ParamSchema) :=
  (tools_map mcp_tools tool_name).map (fun t => (t.name, t.description, t.inputSchema))

end ExecutorAgent

namespace MCPOrchestrator

open ConsultantAgent

/-- ExecutionRecord models one entry of `context.execution_history`
(the dict literal appended by `process_user_request`). The timestamp is the
event-loop clock reading, supplied as an oracle. -/
structure ExecutionRecord where
  user_input : String
  consultant_response : String
  execution_plan : TaskPlan
  execution_result : String
  timestamp : Nat

/-- ConversationContext mirrors the `ConversationContext` dataclass of
`orchestrator.py` after `__post_init__` (history always a list). -/
structure ConversationContext where
  session_id : String
  consultant_thread_id : String
  executor_thread_id : String
  current_plan : Option TaskPlan
  execution_history : List ExecutionRecord

/-- create_conversation embeds `MCPOrchestrator.create_conversation` for a
given fresh identifier: thread ids are derived deterministically from it and
the context starts with no plan and empty history. -/
def create_conversation (session_id : String) : ConversationContext :=
  { session_id := session_id
    consultant_thread_id := "consultant_" ++ session_id
    executor_thread_id := "executor_" ++ session_id
    current_plan := none
    execution_history := [] }

/-- CallSpec packages the per-request inputs and external-collaborator
outcomes of one `process_user_request` call: the user text, the advisory
role's outcome, the execution role's outcome (consulted only if the EXECUTING
path is reached), the event-loop timestamp, and the auto-execute flag. -/
structure CallSpec where
  user_input : String
  consult : Except String String
  execute : Except String String
  timestamp : Nat
  auto_execute : Bool

/-- asStrings returns the strings of a decoded list when every element is a
string, and `none` otherwise (a non-string element makes Python's
`str.join` raise `TypeError`). -/
def asStrings : List Json → Option (List String)
  | [] => some []
  | Json.str s :: rest => (asStrings rest).map (fun l => s :: l)
  | _ :: _ => none

/-- pyJoin models Python `sep.join(x)` on a decoded JSON value `x`:
a list joins when all elements are strings; a string joins its characters;
a dict joins its keys (always strings after a JSON decode); anything else is
not iterable or yields non-strings, so the join raises (`none`). -/
def pyJoin (sep : String) : Json → Option String
  | Json.arr items => (asStrings items).map (pyIntercalate sep)
  | Json.str s => some (pyIntercalate sep (s.data.map (fun c => String.mk [c])))
  | Json.obj kvs => some (pyIntercalate sep (kvs.map (fun p => p.1)))
  | _ => none

/-- enumSteps models `enumerate(steps)` materialised by the list
comprehension in `process_user_request`: a decoded list yields its elements;
an empty string or empty dict iterates zero times; a non-empty string or dict
yields non-dict items whose `.get` raises at the first step (`none`); scalars
are not iterable at all (`none`). -/
def enumSteps : Json → Option (List Json)
  | Json.arr items => some items
  | Json.str s => if s.data.isEmpty then some [] else none
  | Json.obj kvs => if kvs.isEmpty then some [] else none
  | _ => none

/-- buildStepLines renders the comprehension
`[f"{i+1}. {step.get('description', step.get('action', ''))}" for i, step in
enumerate(...)]`: each step must be a dict, otherwise `.get` raises. -/
def buildStepLines (pystr : Json → String) : Nat → List Json → Option (List String)
  | _, [] => some []
  | i, Json.obj kvs :: rest =>
    (buildStepLines pystr (i + 1) rest).map (fun ls =>
      (toString (i + 1) ++ ". " ++
        pystr (jsonGetD kvs "description" (jsonGetD kvs "action" (Json.str "")))) :: ls)
  | _, _ :: _ => none

/-- buildPrompt renders the `execution_prompt` f-string of
`process_user_request`; it fails (`none`) exactly when the interpolation
would raise, i.e. when the plan's `execution_steps` is not a sequence of
dicts. -/
def buildPrompt (pystr : Json → String) (plan : TaskPlan) : Option String :=
  (enumSteps plan.execution_steps).bind (fun items =>
    (buildStepLines pystr 0 items).map (fun ls =>
      "\nEjecuta esta tarea: " ++ pystr plan.task_description ++
      "\n\nPasos a seguir:\n" ++ pyIntercalate "\n" ls ++
      "\n\nResultado esperado: " ++ pystr plan.expected_outcome ++ "\n"))

/-- errResponse is the diagnostic string built by the engine-boundary
`except` clause of `process_user_request`. -/
def errResponse (e : String) : String :=
  "❌ Error procesando solicitud: " ++ e

/-- typeErrorText stands for the interpreter-rendered message of a
`TypeError`/`AttributeError` raised while interpolating the plan into the
execution prompt; no claim observes its exact text. -/
def typeErrorText : String := "TypeError"

/-- process_user_request embeds the per-session body of
`MCPOrchestrator.process_user_request` (the `try` block operating on a found
context). External outcomes come from the `CallSpec`; every caught exception
becomes the diagnostic return value with the context exactly as the source
left it at the raise point. -/
def process_user_request (pystr : Json → String) (loads : String → Option Json)
    (c : CallSpec) (ctx : ConversationContext) : ConversationContext × String :=
  match c.consult with
  | Except.error e => (ctx, errResponse e)
  | Except.ok consultant_response =>
    match extract_execution_plan loads consultant_response with
    | some execution_plan =>
      if c.auto_execute then
        match pyJoin ", " execution_plan.required_tools with
        | none => (ctx, errResponse typeErrorText)
        | some _tools_line =>
          let ctx1 := { ctx with current_plan := some execution_plan }
          match buildPrompt pystr execution_plan with
          | none => (ctx1, errResponse typeErrorText)
          | some _execution_prompt =>
            match c.execute with
            | Except.error e => (ctx1, errResponse e)
            | Except.ok execution_result =>
              let record : ExecutionRecord :=
                { user_input := c.user_input
                  consultant_response := consultant_response
                  execution_plan := execution_plan
                  execution_result := execution_result
                  timestamp := c.timestamp }
              ({ ctx1 with execution_history := ctx1.execution_history ++ [record] },
               "\n**Análisis de la solicitud:**\n" ++ consultant_response ++
               "\n\n**Resultado de la ejecución:**\n" ++ execution_result ++ "\n")
      else
        ({ ctx with current_plan := some execution_plan },
         "\n" ++ consultant_response ++
         "\n\n💡 **Plan de ejecución preparado pero no ejecutado automáticamente.**\nUsa `execute_current_plan()` para ejecutarlo o `process_user_request()` con `auto_execute=True`.\n")
    | none => (ctx, consultant_response)

/-- process_all folds a sequence of sequential `process_user_request` calls
over one session's context. -/
def process_all (pystr : Json → String) (loads : String → Option Json) :
    List CallSpec → ConversationContext → ConversationContext
  | [], ctx => ctx
  | c :: cs, ctx => process_all pystr loads cs (process_user_request pystr loads c ctx).1

/-- executing_path_ok decides whether one call runs the EXECUTING path to
completion: the advisory call returned, a plan was extracted, auto-execute was
on, the prompt interpolation did not raise, and the execution role returned. -/
def executing_path_ok (pystr : Json → String) (loads : String → Option Json)
    (c : CallSpec) : Bool :=
  match c.consult with
  | Except.error _ => false
  | Except.ok r =>
    match extract_execution_plan loads r with
    | none => false
    | some p =>
      c.auto_execute && (pyJoin ", " p.required_tools).isSome &&
        (buildPrompt pystr p).isSome &&
        (match c.execute with | Except.ok _ => true | Except.error _ => false)

/-- stream_execution embeds the per-session body of
`MCPOrchestrator.stream_execution`: the returned list is the ordered sequence
of yielded fragments, and the returned context is the session state after the
stream (the source performs no mutation on it). `execStream` is the execution
role's streaming contract, as a function of prompt and executor thread id. -/
def stream_execution (pystr : Json → String) (loads : String → Option Json)
    (consult : Except String String) (execStream : String → String → List String)
    (ctx : ConversationContext) : ConversationContext × List String :=
  match consult with
  | Except.error e => (ctx, ["🤔 Analizando solicitud...\n", "\n❌ Error: " ++ e])
  | Except.ok consultant_response =>
    match extract_execution_plan loads consultant_response with
    | none =>
      (ctx, ["🤔 Analizando solicitud...\n",
             "**Análisis:**\n" ++ consultant_response ++ "\n\n"])
    | some execution_plan =>
      (ctx, ["🤔 Analizando solicitud...\n",
             "**Análisis:**\n" ++ consultant_response ++ "\n\n",
             "📋 **Ejecutando plan:** " ++ pystr execution_plan.task_description ++ "\n\n"] ++
            execStream ("Ejecuta: " ++ pystr execution_plan.task_description)
              ctx.executor_thread_id)

end MCPOrchestrator

open ConsultantAgent MCPClientMod ExecutorAgent MCPOrchestrator

/-- loadsW is a concrete decoder oracle used by the witness theorems:
it decodes the two literals exercised there and fails on everything else. -/
def loadsW : String → Option Json := fun s =>
  if s = "[]" then some (Json.arr [])
  else if s = "\x7b\x7d" then some (Json.obj [])
  else none

/-- pystrW is a concrete rendering oracle used by the witness theorems. -/
def pystrW : Json → String := fun _ => ""

/-- execStreamW is a concrete execution-role streaming oracle used by the
witness theorems. -/
def execStreamW : String → String → List String := fun _ _ => ["fragmentA", "fragmentB"]

/-- ctxW is a fresh conversation context used by the witness theorems. -/
def ctxW : ConversationContext := create_conversation "s"

/-- planDefaultW is the plan extracted from an empty fenced object: every
field at its default. -/
def planDefaultW : TaskPlan :=
  { task_description := Json.str "", required_tools := Json.arr []
    execution_steps := Json.arr [], expected_outcome := Json.str "" }

/-- callPlanW is a call whose advisory outcome carries a fenced empty plan
and whose execution succeeds. -/
def callPlanW : CallSpec :=
  { user_input := "haz algo", consult := Except.ok "```json\n\x7b\x7d\n```"
    execute := Except.ok "listo", timestamp := 1, auto_execute := true }

/-- callPlainW is a call whose advisory outcome carries no fenced block. -/
def callPlainW : CallSpec :=
  { user_input := "hola", consult := Except.ok "hola!"
    execute := Except.ok "n/a", timestamp := 2, auto_execute := true }

/-- callFailW is a call whose advisory role raises. -/
def callFailW : CallSpec :=
  { user_input := "x", consult := Except.error "boom"
    execute := Except.ok "n/a", timestamp := 3, auto_execute := true }

/-- callExecFailW is a call whose advisory outcome carries a fenced empty
plan but whose execution role raises. -/
def callExecFailW : CallSpec :=
  { user_input := "y", consult := Except.ok "```json\n\x7b\x7d\n```"
    execute := Except.error "kaboom", timestamp := 4, auto_execute := true }

/-- schemaW is a two-parameter schema with one required field and one field
of unknown kind, used by the witness theorems. -/
def schemaW : ParamSchema :=
  { required := ["path"]
    properties := [("path", { type := some "string", description := some "p" }),
                   ("depth", { type := some "wat", description := none })] }

/-- fdepthW is the argument-contract field built for the optional
unknown-kind parameter of `schemaW`. -/
def fdepthW : ModelField :=
  { name := "depth", pyType := PyType.str, default := FieldDefault.pynone
    description := "" }

/-- envW is a one-variable environment used by the witness theorems. -/
def envW : List (List Char × List Char) := [(['A'], ['x', 'y'])]

/-- schemaEmptyW is an empty parameter schema for the witness tools. -/
def schemaEmptyW : ParamSchema := { required := [], properties := [] }

/-- toolOneW is a tool named "dup" exposed by provider "one". -/
def toolOneW : MCPTool :=
  { name := "dup", description := "from one", inputSchema := schemaEmptyW
    server_name := "one" }

/-- toolTwoW is a tool named "dup" exposed by provider "two". -/
def toolTwoW : MCPTool :=
  { name := "dup", description := "from two", inputSchema := schemaEmptyW
    server_name := "two" }

theorem collectJsonLines_skip (pre rest : List String)
    (h : ∀ l ∈ pre, pyStartsWith (pyStrip l) "```json" = false) :
    collectJsonLines (pre ++ rest) false = collectJsonLines rest false := by
  induction pre with
  | nil => rfl
  | cons l ls ih =>
    have h1 : pyStartsWith (pyStrip l) "```json" = false := h l (List.mem_cons_self l ls)
    have h2 := ih (fun x hx => h x (List.mem_cons_of_mem _ hx))
    simpa [collectJsonLines, h1] using h2

theorem collectJsonLines_none (ls : List String)
    (h : ∀ l ∈ ls, pyStartsWith (pyStrip l) "```json" = false) :
    collectJsonLines ls false = [] := by
  have := collectJsonLines_skip ls [] h
  simpa using this

theorem collectJsonLines_open (l : String) (rest : List String) (b : Bool)
    (h : pyStartsWith (pyStrip l) "```json" = true) :
    collectJsonLines (l :: rest) b = collectJsonLines rest true := by
  simp [collectJsonLines, h]

theorem collectJsonLines_interior (interior : List String) (closer : String)
    (rest : List String)
    (hint : ∀ l ∈ interior, pyStartsWith (pyStrip l) "```json" = false ∧ pyStrip l ≠ "```")
    (hcl : pyStrip closer = "```") :
    collectJsonLines (interior ++ closer :: rest) true = interior := by
  induction interior with
  | nil =>
    have hop : pyStartsWith "```" "```json" = false := by decide
    simp [collectJsonLines, hcl, hop]
  | cons l ls ih =>
    obtain ⟨h1, h2⟩ := hint l (List.mem_cons_self l ls)
    have h3 := ih (fun x hx => hint x (List.mem_cons_of_mem _ hx))
    simp [collectJsonLines, h1, h2, h3]

/-- C1: for every input text the extractor is a total function into
`Option TaskPlan` (it never raises); when no line strips to a string starting
with the json fence marker, or the collected interior fails JSON decoding, or
decodes to a non-object, the result is `none`. -/
theorem c1_extractor_never_raises (loads : String → Option Json) (response : String) :
    ((∀ l ∈ pySplitNl response, pyStartsWith (pyStrip l) "```json" = false) →
      extract_execution_plan loads response = none) ∧
    (loads (pyIntercalate "\n" (collectJsonLines (pySplitNl response) false)) = none →
      extract_execution_plan loads response = none) ∧
    (∀ v, loads (pyIntercalate "\n" (collectJsonLines (pySplitNl response) false)) = some v →
      v.isObj = false → extract_execution_plan loads response = none) := by
  refine ⟨?_, ?_, ?_⟩
  · intro h
    simp [extract_execution_plan, collectJsonLines_none _ h]
  · intro h
    cases he : (collectJsonLines (pySplitNl response) false).isEmpty with
    | true => simp [extract_execution_plan, he]
    | false => simp [extract_execution_plan, he, h]
  · intro v hv hobj
    cases he : (collectJsonLines (pySplitNl response) false).isEmpty with
    | true => simp [extract_execution_plan, he]
    | false => cases v <;> simp_all [extract_execution_plan, Json.isObj, he]

/-- Witness for C1: a text with no fence, a fenced block that fails to
decode, and a fenced block decoding to a non-object all yield `none`. -/
theorem c1_extractor_never_raises_witness :
    extract_execution_plan loadsW "hello" = none ∧
    extract_execution_plan loadsW "```json\nxyz\n```" = none ∧
    extract_execution_plan loadsW "```json\n[]\n```" = none :=
  ⟨(c1_extractor_never_raises loadsW "hello").1 (by decide),
   (c1_extractor_never_raises loadsW "```json\nxyz\n```").2.1 rfl,
   (c1_extractor_never_raises loadsW "```json\n[]\n```").2.2 (Json.arr []) rfl rfl⟩

/-- C2: for a text whose lines split as prefix, opening fence line, non-empty
interior free of fence markers, closing fence line and remainder, with the
interior decoding to a JSON object, the extractor returns a `TaskPlan` whose
four fields are the object's corresponding entries, each absent entry
defaulting to the empty string or empty list. -/
theorem c2_extractor_wellformed_block (loads : String → Option Json)
    (response : String) (pre interior rest : List String)
    (opener closer : String) (kvs : List (String × Json))
    (hsplit : pySplitNl response = pre ++ opener :: (interior ++ closer :: rest))
    (hpre : ∀ l ∈ pre, pyStartsWith (pyStrip l) "```json" = false)
    (hop : pyStartsWith (pyStrip opener) "```json" = true)
    (hint : ∀ l ∈ interior, pyStartsWith (pyStrip l) "```json" = false ∧ pyStrip l ≠ "```")
    (hcl : pyStrip closer = "```")
    (hne : interior ≠ [])
    (hdec : loads (pyIntercalate "\n" interior) = some (Json.obj kvs)) :
    extract_execution_plan loads response =
      some { task_description := jsonGetD kvs "task_description" (Json.str "")
             required_tools := jsonGetD kvs "required_tools" (Json.arr [])
             execution_steps := jsonGetD kvs "execution_steps" (Json.arr [])
             expected_outcome := jsonGetD kvs "expected_outcome" (Json.str "") } := by
  have hcol : collectJsonLines (pySplitNl response) false = interior := by
    rw [hsplit, collectJsonLines_skip pre _ hpre, collectJsonLines_open _ _ _ hop,
        collectJsonLines_interior interior closer rest hint hcl]
  have hne2 : interior.isEmpty = false := by
    cases interior with
    | nil => exact absurd rfl hne
    | cons a b => rfl
  simp [extract_execution_plan, hcol, hne2, hdec]

/-- Witness for C2: a concrete message with an empty fenced object decodes
to the all-default plan. -/
theorem c2_extractor_wellformed_block_witness :
    extract_execution_plan loadsW "a\n```json\n\x7b\x7d\n```\nb" =
      some planDefaultW :=
  c2_extractor_wellformed_block loadsW "a\n```json\n\x7b\x7d\n```\nb"
    ["a"] ["\x7b\x7d"] ["b"] "```json" "```" []
    rfl (by decide) (by decide) (by decide) (by decide) (by decide) rfl

/-- C5: the argument contract lists fields in schema declaration order, makes
a field required (ellipsis default) exactly when its name is in the schema's
required set, gives every other field the unset `None` default, and maps an
unknown declared kind to the string type. -/
theorem c5_create_model_contract (schema : ParamSchema) :
    ((create_model schema).map (fun f => f.name) = schema.properties.map (fun p => p.1)) ∧
    (∀ f ∈ create_model schema,
      ((f.default = FieldDefault.ellipsis) ↔ f.name ∈ schema.required)) ∧
    (∀ f ∈ create_model schema,
      f.name ∉ schema.required → f.default = FieldDefault.pynone) ∧
    (∀ (i : Nat) (fn : String) (fs : FieldSchema), schema.properties[i]? = some (fn, fs) →
      ∀ k, fs.type = some k →
        k ∉ (["string", "integer", "number", "boolean", "object", "array"] : List String) →
        ((create_model schema)[i]?).map (fun f => f.pyType) = some PyType.str) := by
  refine ⟨?_, ?_, ?_, ?_⟩
  · rw [create_model, List.map_map]
    exact List.map_congr_left (fun p _ => rfl)
  · intro f hf
    rw [create_model] at hf
    obtain ⟨p, _, hfp⟩ := List.mem_map.mp hf
    subst hfp
    by_cases hm : p.1 ∈ schema.required <;> simp [hm]
  · intro f hf hnr
    rw [create_model] at hf
    obtain ⟨p, _, hfp⟩ := List.mem_map.mp hf
    subst hfp
    simp only at hnr
    simp [hnr]
  · intro i fn fs hget k hk hnk
    simp only [List.mem_cons, List.mem_singleton, not_or] at hnk
    obtain ⟨n1, n2, n3, n4, n5, n6, _⟩ := hnk
    simp [create_model, List.getElem?_map, hget, hk, pyTypeOfKind, n1, n2, n3, n4, n5, n6]

/-- Witness for C5: on a concrete schema the contract preserves order, the
unknown-kind optional field gets the string type and the `None` default. -/
theorem c5_create_model_contract_witness :
    ((create_model schemaW).map (fun f => f.name) = ["path", "depth"]) ∧
    fdepthW.default = FieldDefault.pynone ∧
    ((create_model schemaW)[1]?).map (fun f => f.pyType) = some PyType.str :=
  ⟨Eq.trans (c5_create_model_contract schemaW).1 (by decide),
   (c5_create_model_contract schemaW).2.2.1 fdepthW (by decide) (by decide),
   (c5_create_model_contract schemaW).2.2.2 1 "depth" { type := some "wat", description := none }
     (by decide) "wat" rfl (by decide)⟩

theorem dollarBraceForm_test (s : List Char) :
    (['$', lbrace].isPrefixOf s && [rbrace].isSuffixOf s) = true ↔
      ∃ v, s = dollarBraceForm v := by
  constructor
  · intro h
    obtain ⟨hpre, hsuf⟩ := Bool.and_eq_true_iff.mp h
    obtain ⟨t, ht⟩ := List.isPrefixOf_iff_prefix.mp hpre
    obtain ⟨u, hu⟩ := List.isSuffixOf_iff_suffix.mp hsuf
    rcases List.eq_nil_or_concat t with rfl | ⟨t0, a, rfl⟩
    · exfalso
      rw [← ht] at hu
      have h1 : (u ++ [rbrace]).getLast? = some rbrace := List.getLast?_concat u
      rw [hu] at h1
      simp only [List.append_nil] at h1
      have h2 : (['$', lbrace] : List Char).getLast? = some lbrace := rfl
      rw [h1] at h2
      have : rbrace = lbrace := Option.some.inj h2
      exact absurd this (by decide)
    · rw [List.concat_eq_append] at ht
      rw [← ht] at hu
      have h1 : (u ++ [rbrace]).getLast? = some rbrace := List.getLast?_concat u
      rw [hu] at h1
      have h2 : (['$', lbrace] ++ (t0 ++ [a])).getLast? = some a := by
        rw [← List.append_assoc]
        exact List.getLast?_concat _
      rw [h1] at h2
      have ha : rbrace = a := Option.some.inj h2
      refine ⟨t0, ?_⟩
      rw [← ht, ← ha]
      simp [dollarBraceForm]
  · rintro ⟨v, rfl⟩
    apply Bool.and_eq_true_iff.mpr
    constructor
    · simp [dollarBraceForm, List.isPrefixOf]
    · apply List.isSuffixOf_iff_suffix.mpr
      exact ⟨'$' :: lbrace :: v, by simp [dollarBraceForm]⟩

theorem dollarBraceForm_inner (v : List Char) :
    ((dollarBraceForm v).drop 2).dropLast = v := by
  simp [dollarBraceForm]

/-- C6: a string argument of the exact placeholder form is replaced by the
environment value of its variable when set and passed through literally when
unset; any other argument is passed through unchanged; the whole argument
list is mapped element-wise in order. -/
theorem c6_env_expansion (env : List (List Char × List Char)) :
    (∀ v val, lookupEnv env v = some val →
      expandArg env (CfgArg.str (dollarBraceForm v)) = CfgArg.str val) ∧
    (∀ v, lookupEnv env v = none →
      expandArg env (CfgArg.str (dollarBraceForm v)) = CfgArg.str (dollarBraceForm v)) ∧
    (∀ a : CfgArg, (∀ v, a ≠ CfgArg.str (dollarBraceForm v)) → expandArg env a = a) ∧
    (∀ (args : List CfgArg) (i : Nat),
      (expand_args env args)[i]? = (args[i]?).map (expandArg env)) := by
  refine ⟨?_, ?_, ?_, ?_⟩
  · intro v val h
    have hcond := (dollarBraceForm_test (dollarBraceForm v)).mpr ⟨v, rfl⟩
    simp [expandArg, hcond, dollarBraceForm_inner, h]
  · intro v h
    have hcond := (dollarBraceForm_test (dollarBraceForm v)).mpr ⟨v, rfl⟩
    simp [expandArg, hcond, dollarBraceForm_inner, h]
  · intro a hne
    cases a with
    | other w => rfl
    | str s =>
      cases hcond : (['$', lbrace].isPrefixOf s && [rbrace].isSuffixOf s) with
      | false => simp [expandArg, hcond]
      | true =>
        obtain ⟨v, rfl⟩ := (dollarBraceForm_test s).mp hcond
        exact absurd rfl (hne v)
  · intro args i
    simp [expand_args]

/-- Witness for C6: a set variable is substituted, an unset one and a
non-placeholder string pass through, and a non-string argument is untouched. -/
theorem c6_env_expansion_witness :
    expandArg envW (CfgArg.str (dollarBraceForm ['A'])) = CfgArg.str ['x', 'y'] ∧
    expandArg envW (CfgArg.str (dollarBraceForm ['B'])) = CfgArg.str (dollarBraceForm ['B']) ∧
    expandArg envW (CfgArg.str ['h', 'i']) = CfgArg.str ['h', 'i'] ∧
    (expand_args envW [CfgArg.other 7])[0]? = some (CfgArg.other 7) :=
  ⟨(c6_env_expansion envW).1 ['A'] ['x', 'y'] rfl,
   (c6_env_expansion envW).2.1 ['B'] rfl,
   (c6_env_expansion envW).2.2.1 (CfgArg.str ['h', 'i'])
     (fun v h => by simp [dollarBraceForm, lbrace] at h),
   Eq.trans ((c6_env_expansion envW).2.2.2 [CfgArg.other 7] 0) (by decide)⟩

theorem process_history_step (pystr : Json → String) (loads : String → Option Json)
    (c : CallSpec) (ctx : ConversationContext) :
    (process_user_request pystr loads c ctx).1.execution_history.length =
      ctx.execution_history.length +
        (if executing_path_ok pystr loads c then 1 else 0) := by
  cases hc : c.consult with
  | error e => simp [process_user_request, executing_path_ok, hc]
  | ok r =>
    cases hp : extract_execution_plan loads r with
    | none => simp [process_user_request, executing_path_ok, hc, hp]
    | some p =>
      cases ha : c.auto_execute with
      | false => simp [process_user_request, executing_path_ok, hc, hp, ha]
      | true =>
        cases hj : pyJoin ", " p.required_tools with
        | none => simp [process_user_request, executing_path_ok, hc, hp, ha, hj]
        | some tl =>
          cases hb : buildPrompt pystr p with
          | none => simp [process_user_request, executing_path_ok, hc, hp, ha, hj, hb]
          | some pr =>
            cases he : c.execute with
            | error e =>
              simp [process_user_request, executing_path_ok, hc, hp, ha, hj, hb, he]
            | ok res =>
              simp [process_user_request, executing_path_ok, hc, hp, ha, hj, hb, he]

/-- C3: over any sequential sequence of calls on one session, the history
grows by exactly the number of calls that completed the EXECUTING path, and a
call whose advisory response yields no plan leaves the context untouched and
returns the advisory text verbatim. -/
theorem c3_history_counts_executing (pystr : Json → String)
    (loads : String → Option Json) (calls : List CallSpec)
    (ctx : ConversationContext) :
    ((process_all pystr loads calls ctx).execution_history.length =
      ctx.execution_history.length +
        calls.countP (executing_path_ok pystr loads)) ∧
    (∀ (c : CallSpec) (ctx2 : ConversationContext) (r : String),
      c.consult = Except.ok r → extract_execution_plan loads r = none →
      process_user_request pystr loads c ctx2 = (ctx2, r)) := by
  constructor
  · induction calls generalizing ctx with
    | nil => simp [process_all]
    | cons c cs ih =>
      have h1 := process_history_step pystr loads c ctx
      have h2 := ih (process_user_request pystr loads c ctx).1
      simp only [process_all]
      rw [h2, h1, List.countP_cons]
      cases hpred : executing_path_ok pystr loads c <;> simp [hpred]
      all_goals omega
  · intro c ctx2 r hc hp
    simp [process_user_request, hc, hp]

/-- Witness for C3: one plan-executing call and one plain advisory call give
history length one, and the plain call returns its advisory text verbatim. -/
theorem c3_history_counts_executing_witness :
    (process_all pystrW loadsW [callPlanW, callPlainW] ctxW).execution_history.length = 1 ∧
    process_user_request pystrW loadsW callPlainW ctxW = (ctxW, "hola!") :=
  ⟨Eq.trans (c3_history_counts_executing pystrW loadsW [callPlanW, callPlainW] ctxW).1
     (by decide),
   (c3_history_counts_executing pystrW loadsW [] ctxW).2 callPlainW ctxW "hola!" rfl rfl⟩

/-- C4: a call whose advisory role raises, or whose EXECUTING path raises at
the execution role, returns the engine-boundary diagnostic string and leaves
the session's execution history exactly as it was. -/
theorem c4_faults_preserve_history (pystr : Json → String)
    (loads : String → Option Json) (c : CallSpec) (ctx : ConversationContext)
    (e : String)
    (h : c.consult = Except.error e ∨
      (∃ r p, c.consult = Except.ok r ∧ extract_execution_plan loads r = some p ∧
        c.auto_execute = true ∧ (pyJoin ", " p.required_tools).isSome = true ∧
        (buildPrompt pystr p).isSome = true ∧ c.execute = Except.error e)) :
    (process_user_request pystr loads c ctx).1.execution_history =
      ctx.execution_history ∧
    (process_user_request pystr loads c ctx).2 = errResponse e := by
  rcases h with hc | ⟨r, p, hc, hp, ha, hj, hb, he⟩
  · simp [process_user_request, hc]
  · obtain ⟨tl, htl⟩ := Option.isSome_iff_exists.mp hj
    obtain ⟨pr, hpr⟩ := Option.isSome_iff_exists.mp hb
    simp [process_user_request, hc, hp, ha, htl, hpr, he]

/-- Witness for C4: a call that extracts a plan but whose execution role
raises returns the diagnostic and appends nothing. -/
theorem c4_faults_preserve_history_witness :
    (process_user_request pystrW loadsW callExecFailW ctxW).1.execution_history =
      ctxW.execution_history ∧
    (process_user_request pystrW loadsW callExecFailW ctxW).2 = errResponse "kaboom" :=
  c4_faults_preserve_history pystrW loadsW callExecFailW ctxW "kaboom"
    (Or.inr ⟨"```json\n\x7b\x7d\n```", planDefaultW, rfl, rfl, rfl, rfl, rfl, rfl⟩)

/-- C7: with a fault-free advisory role, the stream emits the analyzing
marker, then one fragment carrying the full advisory text, then — exactly
when a plan was extracted — the running-plan marker followed by the execution
role's fragments in their original order, nothing reordered or dropped. -/
theorem c7_stream_fragment_order (pystr : Json → String)
    (loads : String → Option Json) (execStream : String → String → List String)
    (ctx : ConversationContext) (consult : Except String String) (r : String)
    (h : consult = Except.ok r) :
    (stream_execution pystr loads consult execStream ctx).2 =
      ["🤔 Analizando solicitud...\n", "**Análisis:**\n" ++ r ++ "\n\n"] ++
      (match extract_execution_plan loads r with
       | none => []
       | some p =>
         ("📋 **Ejecutando plan:** " ++ pystr p.task_description ++ "\n\n") ::
           execStream ("Ejecuta: " ++ pystr p.task_description)
             ctx.executor_thread_id) := by
  subst h
  cases hp : extract_execution_plan loads r <;> simp [stream_execution, hp]

/-- Witness for C7: a concrete advisory text with a fenced plan streams the
two markers, the advisory fragment and the execution role's two fragments in
order. -/
theorem c7_stream_fragment_order_witness :
    (stream_execution pystrW loadsW (Except.ok "```json\n\x7b\x7d\n```")
        execStreamW ctxW).2 =
      ["🤔 Analizando solicitud...\n",
       "**Análisis:**\n```json\n\x7b\x7d\n```\n\n",
       "📋 **Ejecutando plan:** \n\n", "fragmentA", "fragmentB"] :=
  Eq.trans
    (c7_stream_fragment_order pystrW loadsW execStreamW ctxW
      (Except.ok "```json\n\x7b\x7d\n```") "```json\n\x7b\x7d\n```" rfl)
    (by decide)

/-- C10: streaming a request mutates nothing in the session context: the
execution history and the current plan are exactly as before the stream, even
when a plan was extracted and the execution role ran. -/
theorem c10_stream_leaves_context (pystr : Json → String)
    (loads : String → Option Json) (consult : Except String String)
    (execStream : String → String → List String) (ctx : ConversationContext) :
    (stream_execution pystr loads consult execStream ctx).1.execution_history =
      ctx.execution_history ∧
    (stream_execution pystr loads consult execStream ctx).1.current_plan =
      ctx.current_plan := by
  cases consult with
  | error e => exact ⟨rfl, rfl⟩
  | ok r =>
    cases hp : extract_execution_plan loads r <;>
      exact ⟨by simp [stream_execution, hp], by simp [stream_execution, hp]⟩

theorem foldl_dictInsert_apply (ts : List MCPTool) (m : String → Option MCPTool)
    (n : String) :
    (ts.foldl dictInsert m) n =
      match tools_map ts n with
      | some t => some t
      | none => m n := by
  induction ts generalizing m with
  | nil => simp [tools_map]
  | cons t ts ih =>
    show (ts.foldl dictInsert (dictInsert m t)) n = _
    rw [ih (dictInsert m t)]
    have h2 : tools_map (t :: ts) n =
        match tools_map ts n with
        | some u => some u
        | none => dictInsert (fun _ => none) t n := by
      show (ts.foldl dictInsert (dictInsert (fun _ => none) t)) n = _
      rw [ih (dictInsert (fun _ => none) t)]
    rw [h2]
    cases htm : tools_map ts n with
    | some u => simp
    | none => by_cases hn : n = t.name <;> simp [dictInsert, hn]

theorem tools_map_cons (t : MCPTool) (ts : List MCPTool) (n : String) :
    tools_map (t :: ts) n =
      match tools_map ts n with
      | some u => some u
      | none => if n = t.name then some t else none := by
  show (ts.foldl dictInsert (dictInsert (fun _ => none) t)) n = _
  rw [foldl_dictInsert_apply]
  cases tools_map ts n <;> simp [dictInsert]

theorem tools_map_not_named (ts : List MCPTool) (n : String)
    (h : ∀ t ∈ ts, t.name ≠ n) : tools_map ts n = none := by
  induction ts with
  | nil => rfl
  | cons t ts ih =>
    rw [tools_map_cons, ih (fun x hx => h x (List.mem_cons_of_mem _ hx))]
    have ht := h t (List.mem_cons_self t ts)
    simp only []
    rw [if_neg (fun hn => ht hn.symm)]

theorem tools_map_append (xs ys : List MCPTool) (n : String) :
    tools_map (xs ++ ys) n =
      match tools_map ys n with
      | some t => some t
      | none => tools_map xs n := by
  show ((xs ++ ys).foldl dictInsert (fun _ => none)) n = _
  rw [List.foldl_append, foldl_dictInsert_apply]
  cases tools_map ys n <;> rfl

theorem tools_map_last (a b : List MCPTool) (t2 : MCPTool) (n : String)
    (hname : t2.name = n) (hb : ∀ u ∈ b, u.name ≠ n) :
    tools_map (a ++ t2 :: b) n = some t2 := by
  rw [tools_map_append, tools_map_cons, tools_map_not_named b n hb]
  simp [hname]

/-- C8: when two providers each expose a tool under the same name, both
remain in their per-provider lists and in the combined tool sequence, and the
global name lookup — the executor's tools map, used by get_tool_info —
returns the tool of the last-registered provider. -/
theorem c8_duplicate_name_last_wins (s1 s2 : String) (ts1 ts2 : List MCPTool)
    (t1 t2 : MCPTool) (n : String) (a b : List MCPTool)
    (hs : s1 ≠ s2) (h1 : t1 ∈ ts1) (_hn1 : t1.name = n)
    (hsplit : ts2 = a ++ t2 :: b) (hn2 : t2.name = n)
    (hb : ∀ u ∈ b, u.name ≠ n) :
    get_tools_by_server (register_server (register_server emptyClient s1 ts1) s2 ts2) s1 = ts1 ∧
    get_tools_by_server (register_server (register_server emptyClient s1 ts1) s2 ts2) s2 = ts2 ∧
    t1 ∈ (register_server (register_server emptyClient s1 ts1) s2 ts2).all_tools ∧
    t2 ∈ (register_server (register_server emptyClient s1 ts1) s2 ts2).all_tools ∧
    tools_map (register_server (register_server emptyClient s1 ts1) s2 ts2).all_tools n = some t2 ∧
    get_tool_info (register_server (register_server emptyClient s1 ts1) s2 ts2).all_tools n =
      some (t2.name, t2.description, t2.inputSchema) := by
  have hall : (register_server (register_server emptyClient s1 ts1) s2 ts2).all_tools =
      ts1 ++ ts2 := rfl
  have hbeq : (s2 == s1) = false := beq_eq_false_iff_ne.mpr (Ne.symm hs)
  have hmap : tools_map (register_server (register_server emptyClient s1 ts1) s2 ts2).all_tools n =
      some t2 := by
    rw [hall, hsplit, ← List.append_assoc]
    exact tools_map_last (ts1 ++ a) b t2 n hn2 hb
  refine ⟨?_, ?_, ?_, ?_, hmap, ?_⟩
  · simp [get_tools_by_server, register_server, emptyClient, List.find?, hbeq]
  · simp [get_tools_by_server, register_server, emptyClient, List.find?]
  · rw [hall]
    exact List.mem_append_left _ h1
  · rw [hall, hsplit]
    exact List.mem_append_right _ (List.mem_append_right _ (List.mem_cons_self _ _))
  · rw [get_tool_info, hmap]
    rfl

/-- Witness for C8: two providers exposing the tool name "dup"; the global
lookup returns the second provider's tool. -/
theorem c8_duplicate_name_last_wins_witness :
    get_tools_by_server (register_server (register_server emptyClient "one" [toolOneW]) "two" [toolTwoW]) "one" = [toolOneW] ∧
    get_tools_by_server (register_server (register_server emptyClient "one" [toolOneW]) "two" [toolTwoW]) "two" = [toolTwoW] ∧
    toolOneW ∈ (register_server (register_server emptyClient "one" [toolOneW]) "two" [toolTwoW]).all_tools ∧
    toolTwoW ∈ (register_server (register_server emptyClient "one" [toolOneW]) "two" [toolTwoW]).all_tools ∧
    tools_map (register_server (register_server emptyClient "one" [toolOneW]) "two" [toolTwoW]).all_tools "dup" = some toolTwoW ∧
    get_tool_info (register_server (register_server emptyClient "one" [toolOneW]) "two" [toolTwoW]).all_tools "dup" =
      some (toolTwoW.name, toolTwoW.description, toolTwoW.inputSchema) :=
  c8_duplicate_name_last_wins "one" "two" [toolOneW] [toolTwoW] toolOneW toolTwoW
    "dup" [] [] (by decide) (by decide) rfl rfl rfl (by simp)

/-- C9: closing the bridge twice is observationally the same as closing it
once: the first close empties the exit stack, and the second close releases
nothing and leaves the state it received. -/
theorem c9_close_idempotent (st : MCPClientModel) :
    (close (close st).1).1 = (close st).1 ∧
    (close (close st).1).2 = [] ∧
    (close st).1.exit_stack = [] :=
  ⟨rfl, rfl, rfl⟩
